import Mathlib

/-!
# agents-link reconciliation engine — a shallow embedding

This file embeds the link/copy reconciliation engine of `src/index.js`
(functions `isManagedFile`, `isSymlink`, `fileExists`, `ensureDir`,
`createLink`, `updateManagedCopy`, `removeLink`, and the drivers `init`,
`sync`, `clean`) over an explicit filesystem state, and proves the
testable properties of the specification against it.

Filesystem model: a filesystem is an association list from absolute paths
to entries; an entry is a regular file (content plus a readability bit),
a symbolic link (holding its stored link text as a relative path), or a
directory.  Absolute paths are component lists; `path.dirname`,
`path.resolve` and `path.relative` become operations on component lists.
POSIX semantics of the Node `fs` calls used by the engine:
`fs.lstatSync` does not dereference, `fs.accessSync`, `fs.readFileSync`
and `fs.writeFileSync` dereference symlinks (a chain is followed with a
finite fuel, mirroring the kernel's ELOOP limit), `fs.unlinkSync`
removes the entry itself, and `fs.symlinkSync` fails with EEXIST when
any entry — including a dangling symlink — already occupies the path.
-/

namespace AgentsLink

/-- An absolute path, as its list of components from the root. -/
abbrev Path := List String

/-- A relative path as produced by `path.relative`: a number of `..`
steps followed by a descent. `path.resolve(base, r)` then removes
`r.ups` trailing components of `base` and appends `r.downs`. -/
structure RelPath where
  ups : Nat
  downs : List String
deriving DecidableEq, Repr

/-- `path.dirname` on an absolute path: drop the last component. -/
def dirnameP (p : Path) : Path := p.dropLast

/-- `path.resolve(base, r)` for a relative path `r` against absolute
base directory `base`. -/
def pathResolve (base : Path) (r : RelPath) : Path :=
  base.take (base.length - r.ups) ++ r.downs

/-- Length of the longest common prefix of two component lists. -/
def commonLen : List String → List String → Nat
  | [], _ => 0
  | _, [] => 0
  | a :: as, b :: bs => if a = b then commonLen as bs + 1 else 0

/-- `path.relative(base, target)` for absolute `base` and `target`:
climb out of the non-shared part of `base`, then descend into the
non-shared part of `target`. -/
def pathRelative (base target : Path) : RelPath :=
  let c := commonLen base target
  ⟨base.length - c, target.drop c⟩

/-- A filesystem entry: a regular file (content and whether a read of it
succeeds), a symbolic link storing its link text, or a directory. -/
inductive Entry where
  | file (content : String) (readable : Bool)
  | symlink (dest : RelPath)
  | dir
deriving DecidableEq, Repr

/-- A filesystem: an association list from absolute paths to entries. -/
abbrev FS := List (Path × Entry)

/-- Entry stored at `p`, without dereferencing (lstat-level lookup). -/
def lookup : FS → Path → Option Entry
  | [], _ => none
  | (q, e) :: rest, p => if p = q then some e else lookup rest p

/-- Store entry `e` at `p`, replacing any existing entry. -/
def setEntry : FS → Path → Entry → FS
  | [], p, e => [(p, e)]
  | (q, d) :: rest, p, e =>
      if p = q then (p, e) :: rest else (q, d) :: setEntry rest p e

/-- Remove the entry at `p` (the entry itself, never its link target). -/
def removeEntry : FS → Path → FS
  | [], _ => []
  | (q, d) :: rest, p =>
      if p = q then removeEntry rest p else (q, d) :: removeEntry rest p

/-- Follow a chain of symlinks starting at `p` until a non-symlink path
is reached; `none` when the fuel runs out (ELOOP). The result is the
final path; it may be occupied by a file or directory, or be vacant. -/
def followLinks : Nat → FS → Path → Option Path
  | 0, _, _ => none
  | fuel + 1, fs, p =>
      match lookup fs p with
      | some (.symlink r) => followLinks fuel fs (pathResolve (dirnameP p) r)
      | _ => some p

/-- The ELOOP bound used by every dereferencing call. -/
def linkFuel : Nat := 40

/-- `fs.accessSync(p, F_OK)` as a Boolean: dereferences symlinks, so a
dangling symlink counts as non-existent.  Embeds `fileExists` of
src/index.js (lines 86–93). -/
def fileExists (fs : FS) (p : Path) : Bool :=
  match followLinks linkFuel fs p with
  | some q => (lookup fs q).isSome
  | none => false

/-- `fs.lstatSync(p).isSymbolicLink()` with a thrown lstat mapped to
`false`.  Embeds `isSymlink` of src/index.js (lines 74–81). -/
def isSymlink (fs : FS) (p : Path) : Bool :=
  match lookup fs p with
  | some (.symlink _) => true
  | _ => false

/-- `fs.readlinkSync(p)`: the stored link text, without dereferencing;
errors (not a symlink) become `none`. -/
def readlink (fs : FS) (p : Path) : Option RelPath :=
  match lookup fs p with
  | some (.symlink r) => some r
  | _ => none

/-- `fs.readFileSync(p, "utf8")`: dereference, then read a regular
readable file; everything else (vacant, directory, unreadable, ELOOP)
is an error, `none`. -/
def readFile (fs : FS) (p : Path) : Option String :=
  match followLinks linkFuel fs p with
  | some q =>
      match lookup fs q with
      | some (.file c true) => some c
      | _ => none
  | none => none

/-- Does `d` denote an existing directory (after dereferencing)?  The
root `[]` always does. -/
def dirOk (fs : FS) (d : Path) : Bool :=
  d.isEmpty ||
    match followLinks linkFuel fs d with
    | some q => match lookup fs q with
      | some .dir => true
      | _ => false
    | none => false

/-- `fs.writeFileSync(p, c, "utf8")`: dereference to the final path;
overwrite a regular file there, or create a fresh file when the final
path is vacant and its parent directory exists; a directory at the
final path, a missing parent, or ELOOP is an error. -/
def writeFile (fs : FS) (p : Path) (c : String) : Option FS :=
  match followLinks linkFuel fs p with
  | none => none
  | some q =>
      match lookup fs q with
      | some (.file _ _) => some (setEntry fs q (.file c true))
      | some .dir => none
      | some (.symlink _) => none
      | none =>
          if dirOk fs (dirnameP q) then some (setEntry fs q (.file c true))
          else none

/-- `fs.unlinkSync(p)`: remove the entry itself (no dereference);
removing a directory or a vacant path is an error. -/
def unlinkFS (fs : FS) (p : Path) : Option FS :=
  match lookup fs p with
  | some .dir => none
  | none => none
  | some _ => some (removeEntry fs p)

/-- `fs.symlinkSync(r, p, "file")` available iff `sup` (the platform
supports symlink creation): fails with EEXIST when any entry occupies
`p`, with ENOENT/ENOTDIR when the parent directory is missing, and with
EPERM when unsupported. -/
def symlinkNew (sup : Bool) (fs : FS) (r : RelPath) (p : Path) : Option FS :=
  if (lookup fs p).isSome then none
  else if ¬ dirOk fs (dirnameP p) then none
  else if sup then some (setEntry fs p (.symlink r))
  else none

/-- One step of `fs.mkdirSync(d, recursive)`: make `q` a directory if
vacant, accept an existing directory (also through a symlink), and fail
on a file in the way. -/
def mkdirStep (fs : FS) (q : Path) : Option FS :=
  if q.isEmpty then some fs
  else
    match lookup fs q with
    | none => some (setEntry fs q .dir)
    | some .dir => some fs
    | some (.symlink _) => if dirOk fs q then some fs else none
    | some (.file _ _) => none

/-- `fs.mkdirSync(d, recursive true)`: create every missing ancestor of
`d` in order. -/
def mkdirRec (fs : FS) (d : Path) : Option FS :=
  d.inits.foldlM mkdirStep fs

/-- Embeds `ensureDir` of src/index.js (lines 98–103): create the
parent directory of `p` when it does not exist. -/
def ensureDir (fs : FS) (p : Path) : Option FS :=
  let d := dirnameP p
  if fileExists fs d then some fs else mkdirRec fs d

/-! ## Marker, header, and content helpers -/

/-- The `MANAGED_MARKER` constant of src/index.js (lines 5–6). -/
def MANAGED_MARKER : String :=
  "agents-link:managed:e3b0c44298fc1c149afbf4c8996fb92427ae41e4649b934ca495991b7852b855"

/-- The `SOURCE_FILE` constant of src/index.js (line 4). -/
def SOURCE_FILE : String := "AGENTS.md"

/-- The `TARGET_FILES` constant of src/index.js (lines 8–16), each
relative path split into its components. -/
def TARGET_FILES : List (List String) :=
  [["CLAUDE.md"],
   ["GEMINI.md"],
   [".cursor", "rules", "AGENTS.md"],
   [".cursorrules"],
   [".windsurf", "rules", "AGENTS.md"],
   [".github", "copilot-instructions.md"],
   [".rules"]]

/-- Embeds `generateManagedHeader` of src/index.js (lines 21–27). -/
def generateManagedHeader : String :=
  "<!-- " ++ MANAGED_MARKER ++ " -->\n" ++
  "<!-- This file is auto-managed by agents-link. Do not edit manually. -->\n" ++
  "<!-- Source: AGENTS.md -->\n\n"

/-- Embeds `generateDefaultAgentsMd` of src/index.js (lines 32–57). -/
def generateDefaultAgentsMd : String :=
  "# AGENTS.md\n\nA single source of truth for agents (and busy humans) working on this project.\n\n## Project Overview\n\nDescribe your project's purpose, goals, and key information here.\n\n## Development Guidelines\n\nAdd your development guidelines, coding standards, and best practices here.\n\n## Testing\n\nDescribe your testing approach and requirements here.\n\n## Contributing\n\nAdd contribution guidelines and workflow information here.\n\n## Additional Notes\n\nAdd any other important information for agents and developers working on this project.\n"

/-- Does `pat` occur as a contiguous run inside `s`? -/
def hasInfixChars (pat : List Char) : List Char → Bool
  | [] => pat.isEmpty
  | c :: cs => pat.isPrefixOf (c :: cs) || hasInfixChars pat cs

/-- JavaScript `s.includes(pat)`. -/
def strContains (s pat : String) : Bool :=
  hasInfixChars pat.data s.data

/-- Embeds `isManagedFile` of src/index.js (lines 62–69): read the file
(following symlinks) and test marker containment; a read failure is
`false`. -/
def isManagedFile (fs : FS) (p : Path) : Bool :=
  match readFile fs p with
  | some content => strContains content MANAGED_MARKER
  | none => false

/-- Drop `pat` from the front of a character list, or fail. -/
def stripChars : List Char → List Char → Option (List Char)
  | [], s => some s
  | _ :: _, [] => none
  | p :: ps, c :: cs => if p = c then stripChars ps cs else none

/-- Remove the Managed Header from the front of a managed copy's
content, recovering the embedded source content. -/
def stripManagedHeader (s : String) : Option String :=
  (stripChars generateManagedHeader.data s.data).map (fun l => ⟨l⟩)

/-! ## The four engine operations

Each operation takes the filesystem, acts on absolute paths (the JS
code calls `path.resolve` on its arguments; the driver already passes
absolute paths, for which `path.resolve` is the identity), and returns
a tagged outcome together with the new filesystem. -/

/-- Outcome of `createLink`, one tag per console message / return site
of src/index.js lines 109–177.  Every tag except `failed` corresponds
to `return true` in the JS code. -/
inductive COutcome where
  | alreadyLinked
  | pointsElsewhere
  | alreadyManaged
  | skippedForeign
  | createdSymlink
  | createdCopy
  | failed
deriving DecidableEq, Repr

/-- The Boolean `createLink` returns for each outcome. -/
def csuccess : COutcome → Bool
  | .failed => false
  | _ => true

/-- Embeds `createLink` of src/index.js (lines 109–177).  The JS
`readlinkSync` catch-branch (lines 130–138, removing a broken symlink)
has no counterpart here: when `lstat` reports a symlink, `readlink`
succeeds, so that branch is unreachable — and a dangling symlink never
reaches it anyway, because `fileExists` (access, dereferencing) already
reported it as non-existent. -/
def createLink (sup : Bool) (fs : FS) (absSource absTarget : Path) :
    COutcome × FS :=
  if fileExists fs absTarget then
    match lookup fs absTarget with
    | some (.symlink r) =>
        let resolvedLink := pathResolve (dirnameP absTarget) r
        if resolvedLink = absSource then (.alreadyLinked, fs)
        else (.pointsElsewhere, fs)
    | _ =>
        if isManagedFile fs absTarget then (.alreadyManaged, fs)
        else (.skippedForeign, fs)
  else
    match ensureDir fs absTarget with
    | none => (.failed, fs)
    | some fs1 =>
        let rel := pathRelative (dirnameP absTarget) absSource
        match symlinkNew sup fs1 rel absTarget with
        | some fs2 => (.createdSymlink, fs2)
        | none =>
            match readFile fs1 absSource with
            | none => (.failed, fs1)
            | some srcContent =>
                match writeFile fs1 absTarget
                    (generateManagedHeader ++ srcContent) with
                | none => (.failed, fs1)
                | some fs2 => (.createdCopy, fs2)

/-- Outcome of `updateManagedCopy`, one tag per console message of
src/index.js lines 182–209. -/
inductive SOutcome where
  | absentTarget
  | linkNoSync
  | notManaged
  | synced
  | syncFailed
deriving DecidableEq, Repr

/-- Embeds `updateManagedCopy` of src/index.js (lines 182–209). -/
def updateManagedCopy (fs : FS) (absSource absTarget : Path) :
    SOutcome × FS :=
  if ¬ fileExists fs absTarget then (.absentTarget, fs)
  else if isSymlink fs absTarget then (.linkNoSync, fs)
  else if ¬ isManagedFile fs absTarget then (.notManaged, fs)
  else
    match readFile fs absSource with
    | none => (.syncFailed, fs)
    | some srcContent =>
        match writeFile fs absTarget (generateManagedHeader ++ srcContent) with
        | none => (.syncFailed, fs)
        | some fs2 => (.synced, fs2)

/-- Outcome of `removeLink`, one tag per console message of
src/index.js lines 214–243. -/
inductive ROutcome where
  | absentTarget
  | removedSymlink
  | removedCopy
  | notManaged
  | removeFailed
deriving DecidableEq, Repr

/-- Embeds `removeLink` of src/index.js (lines 214–243): an unlink
error is caught and reported as `removeFailed`, never thrown. -/
def removeLink (fs : FS) (absTarget : Path) : ROutcome × FS :=
  if ¬ fileExists fs absTarget then (.absentTarget, fs)
  else if isSymlink fs absTarget then
    match unlinkFS fs absTarget with
    | some fs2 => (.removedSymlink, fs2)
    | none => (.removeFailed, fs)
  else if isManagedFile fs absTarget then
    match unlinkFS fs absTarget with
    | some fs2 => (.removedCopy, fs2)
    | none => (.removeFailed, fs)
  else (.notManaged, fs)

/-! ## Drivers -/

/-- The per-target loop of `init` (src/index.js lines 271–283): run
`createLink` on every target in order, collecting the outcomes; a
failure on one target never stops the loop. -/
def initTargets (sup : Bool) (fs : FS) (srcP : Path) :
    List Path → FS × List COutcome
  | [] => (fs, [])
  | t :: ts =>
      let r := createLink sup fs srcP t
      let rest := initTargets sup r.2 srcP ts
      (rest.1, r.1 :: rest.2)

/-- Embeds `init` of src/index.js (lines 248–301): create the source
from the default template when missing (a failure there throws at once,
modelled `none`), then process every target and finally throw — the
Boolean flag — iff at least one target failed. -/
def init (sup : Bool) (cwd : Path) (fs : FS) :
    Option (FS × List COutcome × Bool) :=
  let srcP := cwd ++ [SOURCE_FILE]
  let step1 : Option FS :=
    if fileExists fs srcP then some fs
    else writeFile fs srcP generateDefaultAgentsMd
  match step1 with
  | none => none
  | some fs0 =>
      let r := initTargets sup fs0 srcP (TARGET_FILES.map (cwd ++ ·))
      some (r.1, r.2, r.2.any (fun o => !(csuccess o)))

/-- The per-target loop of `sync` (src/index.js lines 319–321). -/
def syncTargets (fs : FS) (srcP : Path) : List Path → List SOutcome × FS
  | [] => ([], fs)
  | t :: ts =>
      let u := updateManagedCopy fs srcP t
      let rest := syncTargets u.2 srcP ts
      (u.1 :: rest.1, rest.2)

/-- Embeds `sync` of src/index.js (lines 306–324): a missing source
throws ENOENT before any target is touched; otherwise every target is
processed in order. -/
def sync (cwd : Path) (fs : FS) : Except Unit (List SOutcome) × FS :=
  let srcP := cwd ++ [SOURCE_FILE]
  if ¬ fileExists fs srcP then (.error (), fs)
  else
    let r := syncTargets fs srcP (TARGET_FILES.map (cwd ++ ·))
    (.ok r.1, r.2)

/-- The per-target loop of `clean` (src/index.js lines 334–336). -/
def cleanTargets (fs : FS) : List Path → List ROutcome × FS
  | [] => ([], fs)
  | t :: ts =>
      let u := removeLink fs t
      let rest := cleanTargets u.2 ts
      (u.1 :: rest.1, rest.2)

/-- Embeds `clean` of src/index.js (lines 329–339): run `removeLink`
on every target in order. -/
def clean (cwd : Path) (fs : FS) : List ROutcome × FS :=
  cleanTargets fs (TARGET_FILES.map (cwd ++ ·))

/-! ## Concrete fixtures: small filesystems used to evaluate the engine -/

/-- The demo source path, `AGENTS.md` inside the project root `r`. -/
def srcDemo : Path := ["r", "AGENTS.md"]

/-- The demo target path. -/
def tgtDemo : Path := ["r", "CLAUDE.md"]

/-- A project whose target pre-exists as a foreign (unmanaged) file. -/
def fsForeignDemo : FS :=
  [(["r"], .dir), (srcDemo, .file "Hello" true),
   (tgtDemo, .file "custom rules" true)]

/-- A project whose target is a dangling symlink: the stored link text
`gone` resolves to `r/gone`, which holds no entry. -/
def fsDanglingDemo : FS :=
  [(["r"], .dir), (srcDemo, .file "Hello" true),
   (tgtDemo, .symlink ⟨0, ["gone"]⟩)]

/-- A project whose target is a dangling symlink into a non-existent
directory `r/nodir`. -/
def fsDanglingNoDir : FS :=
  [(["r"], .dir), (srcDemo, .file "Hello" true),
   (tgtDemo, .symlink ⟨0, ["nodir", "gone"]⟩)]

/-- A project whose target is a symlink to a sibling file that is not
the source — and whose content even contains the Managed Marker. -/
def fsElseDemo : FS :=
  [(["r"], .dir), (srcDemo, .file "Hello" true),
   (["r", "other.md"], .file (generateManagedHeader ++ "X") true),
   (tgtDemo, .symlink ⟨0, ["other.md"]⟩)]

/-- A project directory holding nothing at all. -/
def fsEmptyDemo : FS := [(["r"], .dir)]

/-- A project holding only the source file. -/
def fsSrcOnly : FS := [(["r"], .dir), (srcDemo, .file "Hello" true)]

/-! ## Basic lemmas about the filesystem model -/

theorem lookup_setEntry_self (fs : FS) (p : Path) (e : Entry) :
    lookup (setEntry fs p e) p = some e := by
  induction fs with
  | nil => simp [setEntry, lookup]
  | cons hd tl ih =>
      obtain ⟨q, d⟩ := hd
      by_cases h : p = q <;> simp [setEntry, lookup, h, ih]

theorem lookup_setEntry_ne (fs : FS) {p q : Path} (e : Entry) (h : p ≠ q) :
    lookup (setEntry fs q e) p = lookup fs p := by
  induction fs with
  | nil => simp [setEntry, lookup, h]
  | cons hd tl ih =>
      obtain ⟨q', d⟩ := hd
      by_cases h1 : q = q'
      · subst h1
        simp [setEntry, lookup, h]
      · by_cases h2 : p = q' <;> simp [setEntry, lookup, h1, h2, ih]

theorem followLinks_succ (fuel : Nat) (fs : FS) (p : Path) :
    followLinks (fuel + 1) fs p =
      match lookup fs p with
      | some (.symlink r) => followLinks fuel fs (pathResolve (dirnameP p) r)
      | _ => some p := rfl

/-- A path holding a non-symlink entry, or nothing, is its own final
path for any positive fuel. -/
theorem followLinks_of_not_link {fs : FS} {p : Path} (fuel : Nat)
    (h : readlink fs p = none) :
    followLinks (fuel + 1) fs p = some p := by
  rw [followLinks_succ]
  unfold readlink at h
  cases he : lookup fs p with
  | none => simp [he]
  | some e => cases e <;> simp_all

theorem readlink_none_of_file {fs : FS} {p : Path} {c : String} {b : Bool}
    (h : lookup fs p = some (.file c b)) : readlink fs p = none := by
  simp [readlink, h]

theorem readlink_none_of_dir {fs : FS} {p : Path}
    (h : lookup fs p = some .dir) : readlink fs p = none := by
  simp [readlink, h]

theorem readlink_none_of_vacant {fs : FS} {p : Path}
    (h : lookup fs p = none) : readlink fs p = none := by
  simp [readlink, h]

theorem fileExists_of_file {fs : FS} {p : Path} {c : String} {b : Bool}
    (h : lookup fs p = some (.file c b)) : fileExists fs p = true := by
  unfold fileExists
  rw [show linkFuel = 39 + 1 from rfl,
    followLinks_of_not_link 39 (readlink_none_of_file h)]
  simp [h]

theorem fileExists_of_dir {fs : FS} {p : Path}
    (h : lookup fs p = some .dir) : fileExists fs p = true := by
  unfold fileExists
  rw [show linkFuel = 39 + 1 from rfl,
    followLinks_of_not_link 39 (readlink_none_of_dir h)]
  simp [h]

theorem fileExists_of_vacant {fs : FS} {p : Path}
    (h : lookup fs p = none) : fileExists fs p = false := by
  unfold fileExists
  rw [show linkFuel = 39 + 1 from rfl,
    followLinks_of_not_link 39 (readlink_none_of_vacant h)]
  simp [h]

/-- A symlink whose destination holds a regular file passes the
`access` probe. -/
theorem fileExists_link_file {fs : FS} {p : Path} {r : RelPath}
    {c : String} {b : Bool} (h : lookup fs p = some (.symlink r))
    (h2 : lookup fs (pathResolve (dirnameP p) r) = some (.file c b)) :
    fileExists fs p = true := by
  have hf : followLinks linkFuel fs p =
      followLinks (38 + 1) fs (pathResolve (dirnameP p) r) := by
    rw [show linkFuel = 38 + 1 + 1 from rfl, followLinks_succ, h]
  unfold fileExists
  rw [hf, followLinks_of_not_link 38 (readlink_none_of_file h2)]
  simp [h2]

/-- A dangling symlink fails the `access` probe: the engine's
existence check dereferences. -/
theorem fileExists_dangling {fs : FS} {p : Path} {r : RelPath}
    (h : lookup fs p = some (.symlink r))
    (h2 : lookup fs (pathResolve (dirnameP p) r) = none) :
    fileExists fs p = false := by
  have hf : followLinks linkFuel fs p =
      followLinks (38 + 1) fs (pathResolve (dirnameP p) r) := by
    rw [show linkFuel = 38 + 1 + 1 from rfl, followLinks_succ, h]
  unfold fileExists
  rw [hf, followLinks_of_not_link 38 (readlink_none_of_vacant h2)]
  simp [h2]

theorem isSymlink_of_file {fs : FS} {p : Path} {c : String} {b : Bool}
    (h : lookup fs p = some (.file c b)) : isSymlink fs p = false := by
  simp [isSymlink, h]

theorem readFile_of_file {fs : FS} {p : Path} {c : String}
    (h : lookup fs p = some (.file c true)) : readFile fs p = some c := by
  unfold readFile
  rw [show linkFuel = 39 + 1 from rfl,
    followLinks_of_not_link 39 (readlink_none_of_file h)]
  simp [h]

theorem readFile_of_unreadable {fs : FS} {p : Path} {c : String}
    (h : lookup fs p = some (.file c false)) : readFile fs p = none := by
  unfold readFile
  rw [show linkFuel = 39 + 1 from rfl,
    followLinks_of_not_link 39 (readlink_none_of_file h)]
  simp [h]

theorem isManagedFile_of_file {fs : FS} {p : Path} {c : String} {b : Bool}
    (h : lookup fs p = some (.file c b))
    (hm : strContains c MANAGED_MARKER = false) :
    isManagedFile fs p = false := by
  cases b with
  | false => simp [isManagedFile, readFile_of_unreadable h]
  | true => simp [isManagedFile, readFile_of_file h, hm]

theorem dirOk_of_dir {fs : FS} {d : Path} (h : lookup fs d = some .dir) :
    dirOk fs d = true := by
  unfold dirOk
  rw [show linkFuel = 39 + 1 from rfl,
    followLinks_of_not_link 39 (readlink_none_of_dir h)]
  simp [h]

theorem writeFile_vacant {fs : FS} {p : Path} (c : String)
    (h : lookup fs p = none) (hd : dirOk fs (dirnameP p) = true) :
    writeFile fs p c = some (setEntry fs p (.file c true)) := by
  unfold writeFile
  rw [show linkFuel = 39 + 1 from rfl,
    followLinks_of_not_link 39 (readlink_none_of_vacant h)]
  simp [h, hd]

theorem writeFile_overwrite {fs : FS} {p : Path} {c0 : String} {b : Bool}
    (c : String) (h : lookup fs p = some (.file c0 b)) :
    writeFile fs p c = some (setEntry fs p (.file c true)) := by
  unfold writeFile
  rw [show linkFuel = 39 + 1 from rfl,
    followLinks_of_not_link 39 (readlink_none_of_file h)]
  simp [h]

theorem ensureDir_of_dir {fs : FS} {p : Path}
    (h : lookup fs (dirnameP p) = some .dir) : ensureDir fs p = some fs := by
  simp [ensureDir, fileExists_of_dir h]

theorem unlinkFS_of_link {fs : FS} {p : Path} {r : RelPath}
    (h : lookup fs p = some (.symlink r)) :
    unlinkFS fs p = some (removeEntry fs p) := by
  simp [unlinkFS, h]

theorem unlinkFS_of_file {fs : FS} {p : Path} {c : String} {b : Bool}
    (h : lookup fs p = some (.file c b)) :
    unlinkFS fs p = some (removeEntry fs p) := by
  simp [unlinkFS, h]

/-! ## Marker containment and header stripping -/

theorem hasInfixChars_nil_pat (t : List Char) :
    hasInfixChars [] t = true := by
  cases t <;> simp [hasInfixChars, List.isPrefixOf]

theorem isPrefixOf_append_right (a b t : List Char)
    (h : a.isPrefixOf b = true) : a.isPrefixOf (b ++ t) = true := by
  induction a generalizing b with
  | nil => simp [List.isPrefixOf]
  | cons x xs ih =>
      cases b with
      | nil => simp [List.isPrefixOf] at h
      | cons y ys =>
          simp only [List.cons_append, List.isPrefixOf,
            Bool.and_eq_true] at h ⊢
          exact ⟨h.1, ih ys h.2⟩

theorem hasInfixChars_append_right (pat s t : List Char)
    (h : hasInfixChars pat s = true) :
    hasInfixChars pat (s ++ t) = true := by
  induction s with
  | nil =>
      simp only [hasInfixChars, List.isEmpty_iff] at h
      subst h
      simp [hasInfixChars_nil_pat]
  | cons c cs ih =>
      simp only [hasInfixChars, List.cons_append, Bool.or_eq_true] at h ⊢
      rcases h with h | h
      · exact Or.inl (isPrefixOf_append_right _ _ _ h)
      · exact Or.inr (ih h)

set_option maxRecDepth 100000 in
/-- The Managed Header contains the Managed Marker, so a managed copy is
always recognized, whatever the source content appended after it. -/
theorem strContains_header (s : String) :
    strContains (generateManagedHeader ++ s) MANAGED_MARKER = true := by
  unfold strContains
  rw [String.data_append]
  exact hasInfixChars_append_right _ _ _ (by decide)

theorem isManagedFile_of_managed {fs : FS} {p : Path} {s : String}
    (h : lookup fs p = some (.file (generateManagedHeader ++ s) true)) :
    isManagedFile fs p = true := by
  simp [isManagedFile, readFile_of_file h, strContains_header]

theorem stripChars_append (p s : List Char) :
    stripChars p (p ++ s) = some s := by
  induction p with
  | nil => simp [stripChars]
  | cons x xs ih => simp [stripChars, ih]

/-- Stripping the Managed Header from a freshly built managed content
recovers the embedded source content exactly. -/
theorem stripManagedHeader_append (s : String) :
    stripManagedHeader (generateManagedHeader ++ s) = some s := by
  unfold stripManagedHeader
  rw [String.data_append, stripChars_append]
  rfl

/-! ## `path.relative` / `path.resolve` round trip -/

theorem commonLen_le_left (a b : List String) :
    commonLen a b ≤ a.length := by
  induction a generalizing b with
  | nil => simp [commonLen]
  | cons x xs ih =>
      cases b with
      | nil => simp [commonLen]
      | cons y ys =>
          by_cases h : x = y
          · simpa [commonLen, h] using ih ys
          · simp [commonLen, h]

theorem take_common_eq (a b : List String) :
    a.take (commonLen a b) = b.take (commonLen a b) := by
  induction a generalizing b with
  | nil => simp [commonLen]
  | cons x xs ih =>
      cases b with
      | nil => simp [commonLen]
      | cons y ys =>
          by_cases h : x = y
          · subst h
            simp [commonLen, ih]
          · simp [commonLen, h]

/-- `path.resolve(dir, path.relative(dir, t)) = t`: the relative link
text the engine stores resolves back to the absolute path it encoded. -/
theorem pathResolve_pathRelative (base t : Path) :
    pathResolve base (pathRelative base t) = t := by
  unfold pathResolve pathRelative
  simp only []
  rw [Nat.sub_sub_self (commonLen_le_left base t), take_common_eq]
  exact List.take_append_drop _ t

/-- The per-target loop records exactly one outcome per target: no
failure stops processing of the remaining targets. -/
theorem initTargets_length (sup : Bool) (fs : FS) (srcP : Path)
    (ts : List Path) :
    (initTargets sup fs srcP ts).2.length = ts.length := by
  induction ts generalizing fs with
  | nil => simp [initTargets]
  | cons t ts ih => simp [initTargets, ih]

/-- A `createLink` outcome counts as a failure exactly when it is the
`failed` tag; the skipped outcomes all return `true` in the JS code. -/
theorem csuccess_false_iff (o : COutcome) :
    (!(csuccess o)) = true ↔ o = .failed := by
  cases o <;> simp [csuccess]

/-! ## Claims -/

/-- C1: for every target path holding a regular file whose content does
not contain the Managed Marker — readable or not — `createLink`,
`updateManagedCopy` and `removeLink` all leave the filesystem
byte-for-byte unchanged, report the skipped/not-managed outcome, and
`removeLink` never deletes the target. -/
theorem c1_foreign_untouched (sup : Bool) (fs : FS) (src tgt : Path)
    (c : String) (b : Bool)
    (htgt : lookup fs tgt = some (.file c b))
    (hm : strContains c MANAGED_MARKER = false) :
    createLink sup fs src tgt = (.skippedForeign, fs) ∧
    updateManagedCopy fs src tgt = (.notManaged, fs) ∧
    removeLink fs tgt = (.notManaged, fs) ∧
    lookup (removeLink fs tgt).2 tgt = some (.file c b) := by
  have hfe := fileExists_of_file htgt
  have hsym := isSymlink_of_file htgt
  have hman := isManagedFile_of_file htgt hm
  refine ⟨?_, ?_, ?_, ?_⟩
  · simp [createLink, hfe, htgt, hman]
  · simp [updateManagedCopy, hfe, hsym, hman]
  · simp [removeLink, hfe, hsym, hman]
  · simp [removeLink, hfe, hsym, hman, htgt]

set_option maxRecDepth 100000 in
/-- Witness for C1 on a concrete project: a pre-existing
`CLAUDE.md` containing `custom rules` is left alone by all three
operations. -/
theorem c1_foreign_untouched_witness :
    createLink true fsForeignDemo srcDemo tgtDemo =
      (.skippedForeign, fsForeignDemo) ∧
    updateManagedCopy fsForeignDemo srcDemo tgtDemo =
      (.notManaged, fsForeignDemo) ∧
    removeLink fsForeignDemo tgtDemo = (.notManaged, fsForeignDemo) ∧
    lookup (removeLink fsForeignDemo tgtDemo).2 tgtDemo =
      some (.file "custom rules" true) :=
  c1_foreign_untouched true fsForeignDemo srcDemo tgtDemo
    "custom rules" true (by decide) (by decide)

set_option maxRecDepth 100000 in
/-- C2: the claim says a dangling symlink at the target is unlinked and
replaced by a fresh symlink (or fallback copy) at the target path
itself, without error.  The code does neither: `fileExists` (access)
dereferences, so the dangling link is classified as absent, the
broken-link removal branch is never reached, `symlinkSync` fails with
EEXIST, and the fallback `writeFileSync` writes *through* the stale
link, creating the managed content at the link's destination while the
stale link entry survives; when the link's destination directory does
not exist, the call even fails outright. -/
theorem c2_broken_link_not_repaired :
    createLink true fsDanglingDemo srcDemo tgtDemo =
      (.createdCopy,
        fsDanglingDemo ++
          [(["r", "gone"], .file (generateManagedHeader ++ "Hello") true)]) ∧
    lookup (createLink true fsDanglingDemo srcDemo tgtDemo).2 tgtDemo =
      some (.symlink ⟨0, ["gone"]⟩) ∧
    createLink true fsDanglingNoDir srcDemo tgtDemo =
      (.failed, fsDanglingNoDir) := by decide

set_option maxRecDepth 100000 in
/-- C3: the claim says the engine's state inspection never dereferences
when distinguishing symlink-ness from existence, classifying a dangling
symlink as a symlink rather than as absent.  In the code `isSymlink`
(lstat) indeed reports `true`, but every operation gates on
`fileExists` (access, which dereferences) first, so a dangling symlink
is handled as if the path were absent. -/
theorem c3_dangling_treated_absent :
    lookup fsDanglingDemo tgtDemo = some (.symlink ⟨0, ["gone"]⟩) ∧
    isSymlink fsDanglingDemo tgtDemo = true ∧
    fileExists fsDanglingDemo tgtDemo = false ∧
    removeLink fsDanglingDemo tgtDemo = (.absentTarget, fsDanglingDemo) ∧
    updateManagedCopy fsDanglingDemo srcDemo tgtDemo =
      (.absentTarget, fsDanglingDemo) := by decide

set_option maxRecDepth 100000 in
/-- C4: the claim says `removeLink` deletes the link entry of every
symlink target regardless of where it points, including a non-existent
destination.  The code only does so when the destination exists: for a
dangling symlink, the `fileExists` gate (access, dereferencing) reports
the target as absent and `removeLink` returns without unlinking, so
the stale link entry survives. -/
theorem c4_dangling_link_not_removed :
    lookup fsDanglingDemo tgtDemo = some (.symlink ⟨0, ["gone"]⟩) ∧
    removeLink fsDanglingDemo tgtDemo = (.absentTarget, fsDanglingDemo) ∧
    lookup (removeLink fsDanglingDemo tgtDemo).2 tgtDemo =
      some (.symlink ⟨0, ["gone"]⟩) ∧
    removeLink fsElseDemo tgtDemo =
      (.removedSymlink, removeEntry fsElseDemo tgtDemo) := by decide

/-- C8: when the source file is missing, `sync` throws ENOENT before
processing any target, leaving the whole filesystem — hence every
target — unchanged. -/
theorem c8_sync_missing_source (cwd : Path) (fs : FS)
    (h : fileExists fs (cwd ++ [SOURCE_FILE]) = false) :
    sync cwd fs = (.error (), fs) := by
  simp [sync, h]

set_option maxRecDepth 100000 in
/-- Witness for C8: a project directory with no `AGENTS.md`. -/
theorem c8_sync_missing_source_witness :
    sync ["r"] fsEmptyDemo = (.error (), fsEmptyDemo) :=
  c8_sync_missing_source ["r"] fsEmptyDemo (by decide)

/-- C5: on a readable source and a truly absent target (in an existing
directory), running `createLink` twice with no external change yields a
created outcome (symlink, or managed copy when symlinks are
unsupported) then an already-satisfied outcome, and the filesystem
after the second call is identical to the one after the first. -/
theorem c5_createLink_idempotent (sup : Bool) (fs : FS) (src tgt : Path)
    (c : String)
    (hsrc : lookup fs src = some (.file c true))
    (htgt : lookup fs tgt = none)
    (hdir : lookup fs (dirnameP tgt) = some .dir) :
    ∃ fs1,
      createLink sup fs src tgt =
        ((if sup then COutcome.createdSymlink else .createdCopy), fs1) ∧
      createLink sup fs1 src tgt =
        ((if sup then COutcome.alreadyLinked else .alreadyManaged), fs1) := by
  have hne : src ≠ tgt := by
    intro h
    rw [h, htgt] at hsrc
    exact Option.noConfusion hsrc
  cases sup with
  | true =>
      refine ⟨setEntry fs tgt (.symlink (pathRelative (dirnameP tgt) src)),
        ?_, ?_⟩
      · simp [createLink, fileExists_of_vacant htgt, ensureDir_of_dir hdir,
          symlinkNew, htgt, dirOk_of_dir hdir]
      · have hl := lookup_setEntry_self fs tgt
          (.symlink (pathRelative (dirnameP tgt) src))
        have hsrc2 : lookup
            (setEntry fs tgt (.symlink (pathRelative (dirnameP tgt) src)))
            src = some (.file c true) := by
          rw [lookup_setEntry_ne _ _ hne]
          exact hsrc
        have hres := pathResolve_pathRelative (dirnameP tgt) src
        have hstep : lookup
            (setEntry fs tgt (.symlink (pathRelative (dirnameP tgt) src)))
            (pathResolve (dirnameP tgt) (pathRelative (dirnameP tgt) src)) =
            some (.file c true) := by
          rw [hres]
          exact hsrc2
        have hfe : fileExists
            (setEntry fs tgt (.symlink (pathRelative (dirnameP tgt) src)))
            tgt = true := fileExists_link_file hl hstep
        simp [createLink, hfe, hl, hres]
  | false =>
      refine ⟨setEntry fs tgt (.file (generateManagedHeader ++ c) true),
        ?_, ?_⟩
      · simp [createLink, fileExists_of_vacant htgt, ensureDir_of_dir hdir,
          symlinkNew, htgt, dirOk_of_dir hdir, readFile_of_file hsrc,
          writeFile_vacant _ htgt (dirOk_of_dir hdir)]
      · have hl := lookup_setEntry_self fs tgt
          (.file (generateManagedHeader ++ c) true)
        have hfe := fileExists_of_file hl
        have hman := isManagedFile_of_managed hl
        simp [createLink, hfe, hl, hman]

set_option maxRecDepth 100000 in
/-- Witness for C5: `AGENTS.md` containing `Hello` and an absent
`CLAUDE.md`, with symlinks supported. -/
theorem c5_createLink_idempotent_witness :
    ∃ fs1,
      createLink true fsSrcOnly srcDemo tgtDemo =
        ((if true then COutcome.createdSymlink else .createdCopy), fs1) ∧
      createLink true fs1 srcDemo tgtDemo =
        ((if true then COutcome.alreadyLinked else .alreadyManaged), fs1) :=
  c5_createLink_idempotent true fsSrcOnly srcDemo tgtDemo "Hello"
    (by decide) (by decide) (by decide)

/-- C6: when `createLink` falls back to a managed copy and the source
later changes, `updateManagedCopy` rewrites the target to the Managed
Header followed by the current source content verbatim, so stripping
the header recovers the current source content exactly. -/
theorem c6_copy_sync_roundtrip (fs : FS) (src tgt : Path) (c0 c : String)
    (hsrc : lookup fs src = some (.file c0 true))
    (htgt : lookup fs tgt = none)
    (hdir : lookup fs (dirnameP tgt) = some .dir) :
    ∃ fs1 fs2,
      createLink false fs src tgt = (.createdCopy, fs1) ∧
      updateManagedCopy (setEntry fs1 src (.file c true)) src tgt =
        (.synced, fs2) ∧
      readFile fs2 tgt = some (generateManagedHeader ++ c) ∧
      stripManagedHeader (generateManagedHeader ++ c) = some c := by
  have hne : src ≠ tgt := by
    intro h
    rw [h, htgt] at hsrc
    exact Option.noConfusion hsrc
  have h1 : createLink false fs src tgt =
      (.createdCopy, setEntry fs tgt (.file (generateManagedHeader ++ c0) true)) := by
    simp [createLink, fileExists_of_vacant htgt, ensureDir_of_dir hdir,
      symlinkNew, htgt, dirOk_of_dir hdir, readFile_of_file hsrc,
      writeFile_vacant _ htgt (dirOk_of_dir hdir)]
  have htgt2 : lookup
      (setEntry (setEntry fs tgt (.file (generateManagedHeader ++ c0) true))
        src (.file c true)) tgt =
      some (.file (generateManagedHeader ++ c0) true) := by
    rw [lookup_setEntry_ne _ _ hne.symm, lookup_setEntry_self]
  have hsrc2 : lookup
      (setEntry (setEntry fs tgt (.file (generateManagedHeader ++ c0) true))
        src (.file c true)) src = some (.file c true) :=
    lookup_setEntry_self _ _ _
  have h2 : updateManagedCopy
      (setEntry (setEntry fs tgt (.file (generateManagedHeader ++ c0) true))
        src (.file c true)) src tgt =
      (.synced,
        setEntry
          (setEntry (setEntry fs tgt (.file (generateManagedHeader ++ c0) true))
            src (.file c true))
          tgt (.file (generateManagedHeader ++ c) true)) := by
    simp [updateManagedCopy, fileExists_of_file htgt2,
      isSymlink_of_file htgt2, isManagedFile_of_managed htgt2,
      readFile_of_file hsrc2, writeFile_overwrite _ htgt2]
  have h3 := readFile_of_file (lookup_setEntry_self
    (setEntry (setEntry fs tgt (.file (generateManagedHeader ++ c0) true))
      src (.file c true)) tgt (.file (generateManagedHeader ++ c) true))
  exact ⟨_, _, h1, h2, h3, stripManagedHeader_append c⟩

set_option maxRecDepth 100000 in
/-- Witness for C6: the copy is created from source content `Hello`,
the source then changes to `World`, and syncing reproduces a file that
strips back to `World`. -/
theorem c6_copy_sync_roundtrip_witness :
    ∃ fs1 fs2,
      createLink false fsSrcOnly srcDemo tgtDemo = (.createdCopy, fs1) ∧
      updateManagedCopy (setEntry fs1 srcDemo (.file "World" true))
        srcDemo tgtDemo = (.synced, fs2) ∧
      readFile fs2 tgtDemo = some (generateManagedHeader ++ "World") ∧
      stripManagedHeader (generateManagedHeader ++ "World") = some "World" :=
  c6_copy_sync_roundtrip fsSrcOnly srcDemo tgtDemo "Hello" "World"
    (by decide) (by decide) (by decide)

set_option maxRecDepth 100000 in
/-- C7, counterexample to the claim as stated: a *dangling* symlink
whose resolved destination (`r/other.md`) is not the source falls into
the claim's population, yet `createLink` does not report the
skipped/foreign outcome — the dereferencing existence gate classifies
the target as absent, and the fallback write modifies the
filesystem. -/
theorem c7_counterexample :
    lookup fsDanglingDemo tgtDemo = some (.symlink ⟨0, ["gone"]⟩) ∧
    pathResolve (dirnameP tgtDemo) ⟨0, ["gone"]⟩ ≠ srcDemo ∧
    (createLink true fsDanglingDemo srcDemo tgtDemo).1 ≠ .pointsElsewhere ∧
    (createLink true fsDanglingDemo srcDemo tgtDemo).2 ≠ fsDanglingDemo := by
  decide

/-- C7, amended: for every target that is a symlink whose resolved
destination *exists* and is not the resolved source, `createLink`
reports the skipped (points-elsewhere) outcome and leaves the
filesystem unmodified; the symlink branch is taken before the
managed-copy check, so this holds even when the destination's content
contains the Managed Marker. -/
theorem c7_symlink_precedence (sup : Bool) (fs : FS) (src tgt : Path)
    (r : RelPath)
    (htgt : lookup fs tgt = some (.symlink r))
    (hne : pathResolve (dirnameP tgt) r ≠ src)
    (hex : fileExists fs tgt = true) :
    createLink sup fs src tgt = (.pointsElsewhere, fs) := by
  simp [createLink, hex, htgt, hne]

set_option maxRecDepth 100000 in
/-- Witness for the amended C7: the target links to `r/other.md`, whose
content even contains the Managed Marker; the link is still reported
as pointing elsewhere and left alone. -/
theorem c7_symlink_precedence_witness :
    createLink true fsElseDemo srcDemo tgtDemo =
      (.pointsElsewhere, fsElseDemo) :=
  c7_symlink_precedence true fsElseDemo srcDemo tgtDemo ⟨0, ["other.md"]⟩
    (by decide) (by decide) (by decide)

/-- C10: creating a symlink never reads the source: on a supported
platform and an absent target, `createLink` succeeds and reports a
created symlink even when the source file does not exist — the result
is a dangling symlink at the target. -/
theorem c10_symlink_without_source (fs : FS) (src tgt : Path)
    (hsrc : lookup fs src = none)
    (htgt : lookup fs tgt = none)
    (hne : src ≠ tgt)
    (hdir : lookup fs (dirnameP tgt) = some .dir) :
    createLink true fs src tgt =
      (.createdSymlink,
        setEntry fs tgt (.symlink (pathRelative (dirnameP tgt) src))) ∧
    fileExists
      (setEntry fs tgt (.symlink (pathRelative (dirnameP tgt) src)))
      tgt = false := by
  constructor
  · simp [createLink, fileExists_of_vacant htgt, ensureDir_of_dir hdir,
      symlinkNew, htgt, dirOk_of_dir hdir]
  · have hl := lookup_setEntry_self fs tgt
      (.symlink (pathRelative (dirnameP tgt) src))
    refine fileExists_dangling hl ?_
    rw [pathResolve_pathRelative, lookup_setEntry_ne _ _ hne]
    exact hsrc

/-- C9: when the source exists, `init` records one `createLink` outcome
for every configured target — a failure on one target never prevents
processing of the remaining ones — and raises its aggregate error if
and only if at least one outcome is a true failure; the skipped
(foreign) outcomes return `true` in the code, so they never count as
failures. -/
theorem c9_batch_isolation (sup : Bool) (cwd : Path) (fs : FS)
    (h : fileExists fs (cwd ++ [SOURCE_FILE]) = true) :
    ∃ fs1 outs err,
      init sup cwd fs = some (fs1, outs, err) ∧
      outs.length = TARGET_FILES.length ∧
      (err = true ↔ COutcome.failed ∈ outs) := by
  refine ⟨(initTargets sup fs (cwd ++ [SOURCE_FILE])
      (TARGET_FILES.map (cwd ++ ·))).1,
    (initTargets sup fs (cwd ++ [SOURCE_FILE])
      (TARGET_FILES.map (cwd ++ ·))).2,
    (initTargets sup fs (cwd ++ [SOURCE_FILE])
      (TARGET_FILES.map (cwd ++ ·))).2.any (fun o => !(csuccess o)),
    ?_, ?_, ?_⟩
  · simp [init, h]
  · rw [initTargets_length, List.length_map]
  · rw [List.any_eq_true]
    constructor
    · rintro ⟨o, ho, ho2⟩
      rw [csuccess_false_iff] at ho2
      rw [ho2] at ho
      exact ho
    · intro hm
      exact ⟨.failed, hm, by simp [csuccess]⟩

set_option maxRecDepth 100000 in
/-- Witness for C9: a project holding the source and a foreign
`CLAUDE.md`; all seven targets are processed and the batch does not
fail, since the foreign skip is not a failure. -/
theorem c9_batch_isolation_witness :
    ∃ fs1 outs err,
      init true ["r"] fsForeignDemo = some (fs1, outs, err) ∧
      outs.length = TARGET_FILES.length ∧
      (err = true ↔ COutcome.failed ∈ outs) :=
  c9_batch_isolation true ["r"] fsForeignDemo (by decide)

set_option maxRecDepth 100000 in
/-- Witness for C10: an empty project directory — no `AGENTS.md` at
all — still gets a `CLAUDE.md` symlink, which dangles. -/
theorem c10_symlink_without_source_witness :
    createLink true fsEmptyDemo srcDemo tgtDemo =
      (.createdSymlink,
        setEntry fsEmptyDemo tgtDemo
          (.symlink (pathRelative (dirnameP tgtDemo) srcDemo))) ∧
    fileExists
      (setEntry fsEmptyDemo tgtDemo
        (.symlink (pathRelative (dirnameP tgtDemo) srcDemo)))
      tgtDemo = false :=
  c10_symlink_without_source fsEmptyDemo srcDemo tgtDemo
    (by decide) (by decide) (by decide) (by decide)

end AgentsLink
